import Mathlib

/-!
Verification development for the LISAanalysistools sources:

* `lisatools/globalfit/hdfbackend.py` — the band-diagnostics checkpoint
  store layered on top of the generic eryn `HDFBackend`;
* `lisatools/pipeline/pipeline.py` — the start-ensemble selection used by
  the pipeline stages when seeding from a prior checkpoint;
* `lisatools/datacontainer.py` — the residual data container's
  single-source-of-truth input rule and frequency-grid length checks.

The HDF5 file is represented as explicit state.  Machine floats are
modelled as exact rationals / integers, fallible calls return `Except`,
and delegated behaviour of the external base store (eryn) is modelled
from the spec where noted.
-/

namespace GlobalFit

/-- Errors surfaced by the checkpoint-store model.  `configError` is the
`ValueError` raised by `reset` for missing band configuration; `notReady`
is the `AttributeError` raised on reads against a store that is not
initialized or holds zero committed iterations; `resizeError` is the
h5py error raised when `Dataset.resize` is called on a dataset whose
axis 0 cannot grow; `keyError` is a missing-attribute lookup. -/
inductive GFErr where
  | configError
  | notReady
  | resizeError
  | keyError
deriving DecidableEq, Inhabited

/-- One HDF5 dataset of the `band_info` group: its axis-0 entries (each
entry flattened to a `List ℤ`), the flattened size of one entry, and
whether its axis 0 can be grown (h5py: chunked with `maxshape=(None, …)`).
The counter datasets are created with `maxshape=(None, …)`; the
`band_edges` dataset is created from data with no `maxshape`, so its
shape is fixed (with the default `compression=None` it is contiguous and
`resize` always raises; even chunked, its `maxshape` equals its initial
shape, so growing past it raises as well). -/
structure Dataset where
  rowSize : ℕ
  rows : List (List ℤ)
  resizable : Bool
deriving DecidableEq, Inhabited

/-- The `band_info` group created by `reset` (hdfbackend.py lines 18-100).
Fields are listed in alphanumeric name order, which is the order in which
h5py iterates the members of a group. -/
structure BandGroup where
  band_edges : Dataset
  band_num_accepted : Dataset
  band_num_accepted_rj : Dataset
  band_num_binaries : Dataset
  band_num_proposed : Dataset
  band_num_proposed_rj : Dataset
  band_swaps_accepted : Dataset
  band_swaps_proposed : Dataset
  band_temps : Dataset
deriving DecidableEq, Inhabited

/-- The persisted state of one `HDFBackend` store.  `iteration` is
`g.attrs["iteration"]`, the number of committed steps; `baseLen` is the
axis-0 length of the base ensemble arrays owned by the delegated eryn
store; `bandInfoNumBands` is `band_info.attrs["num_bands"]`;
`groupNumBands` is `g.attrs["num_bands"]` on the base group, which
`reset` never writes (modelled as `none` after `reset`). -/
structure Store where
  iteration : ℕ
  baseLen : ℕ
  bandGroup : BandGroup
  bandInfoNumBands : ℕ
  groupNumBands : Option ℕ
  nwalkers : ℕ
  ntemps : ℕ
deriving DecidableEq, Inhabited

/-- A fresh zero-length counter dataset, as created by
`band_info.create_dataset(name, (0, …), maxshape=(None, …), …)`. -/
def mkCounterDS (rowSize : ℕ) : Dataset :=
  { rowSize := rowSize, rows := [], resizable := true }

/-- The `band_info` group as created by `reset` (hdfbackend.py lines
18-100): the `band_edges` dataset from the supplied data with fixed
shape, and eight zero-length growable counter datasets dimensioned
against `num_bands`, `ntemps` and `nwalkers`. -/
def mkBandGroup (nwalkers ntemps num_bands : ℕ) (band_edges : List ℤ) : BandGroup :=
  { band_edges := { rowSize := 1, rows := band_edges.map (fun e => [e]), resizable := false },
    band_num_accepted := mkCounterDS (num_bands * ntemps),
    band_num_accepted_rj := mkCounterDS (num_bands * ntemps),
    band_num_binaries := mkCounterDS (ntemps * nwalkers * num_bands),
    band_num_proposed := mkCounterDS (num_bands * ntemps),
    band_num_proposed_rj := mkCounterDS (num_bands * ntemps),
    band_swaps_accepted := mkCounterDS (num_bands * (ntemps - 1)),
    band_swaps_proposed := mkCounterDS (num_bands * (ntemps - 1)),
    band_temps := mkCounterDS (num_bands * ntemps) }

/-- `HDFBackend.reset` (hdfbackend.py lines 7-100).  Raises `ValueError`
when `num_bands` or `band_edges` is absent (line 8-9), before the
delegated `super().reset` runs.  Otherwise the base store is reset
(zero iterations, zero-length base arrays — delegated to eryn), the
`band_info` group is created, and `band_info.attrs["num_bands"]` is set
to `len(band_edges)` (line 28). -/
def reset (nwalkers ntemps : ℕ) (num_bands : Option ℕ) (band_edges : Option (List ℤ)) :
    Except GFErr Store :=
  if num_bands.isNone || band_edges.isNone then .error .configError
  else
    .ok { iteration := 0
          baseLen := 0
          bandGroup := mkBandGroup nwalkers ntemps (num_bands.getD 0) (band_edges.getD [])
          bandInfoNumBands := (band_edges.getD []).length
          groupNumBands := none
          nwalkers := nwalkers
          ntemps := ntemps }

/-- `reset` as invoked on a backend that may already hold a store: the
`ValueError` for missing band configuration is raised before any
modification, so on error the previous contents are untouched. -/
def resetBackend (b : Option Store) (nwalkers ntemps : ℕ)
    (num_bands : Option ℕ) (band_edges : Option (List ℤ)) :
    Option Store × Option GFErr :=
  match reset nwalkers ntemps num_bands band_edges with
  | .error e => (b, some e)
  | .ok st => (some st, none)

/-- The `num_bands` property (hdfbackend.py lines 102-106): reads
`band_info.attrs["num_bands"]`. -/
def num_bands (st : Store) : ℕ := st.bandInfoNumBands

/-- The `band_edges` property (hdfbackend.py lines 108-112): reads
`f[self.name].attrs["num_bands"]` — an attribute on the base group, not
the `band_edges` dataset.  A missing attribute is a `KeyError`. -/
def band_edges (st : Store) : Except GFErr ℕ :=
  match st.groupNumBands with
  | none => .error .keyError
  | some v => .ok v

/-- `h5py.Dataset.resize(ntot, axis=0)`: growable datasets are padded
with the zero fill value (or truncated); a dataset whose axis 0 cannot
grow raises. -/
def dsResize (d : Dataset) (ntot : ℕ) : Except GFErr Dataset :=
  if d.resizable then
    .ok { d with rows := d.rows.take ntot ++
            List.replicate (ntot - d.rows.length) (List.replicate d.rowSize 0) }
  else .error .resizeError

/-- The loop `for key in g["band_info"]: g["band_info"][key].resize(ntot, axis=0)`
(hdfbackend.py lines 136-137).  h5py iterates the group members in
alphanumeric name order, so `band_edges` comes first; the first failing
resize aborts the loop, leaving the earlier resizes in place and the
later datasets untouched. -/
def growBandLoop (g : BandGroup) (ntot : ℕ) : BandGroup × Option GFErr :=
  match dsResize g.band_edges ntot with
  | .error e => (g, some e)
  | .ok d0 =>
  let g := { g with band_edges := d0 }
  match dsResize g.band_num_accepted ntot with
  | .error e => (g, some e)
  | .ok d1 =>
  let g := { g with band_num_accepted := d1 }
  match dsResize g.band_num_accepted_rj ntot with
  | .error e => (g, some e)
  | .ok d2 =>
  let g := { g with band_num_accepted_rj := d2 }
  match dsResize g.band_num_binaries ntot with
  | .error e => (g, some e)
  | .ok d3 =>
  let g := { g with band_num_binaries := d3 }
  match dsResize g.band_num_proposed ntot with
  | .error e => (g, some e)
  | .ok d4 =>
  let g := { g with band_num_proposed := d4 }
  match dsResize g.band_num_proposed_rj ntot with
  | .error e => (g, some e)
  | .ok d5 =>
  let g := { g with band_num_proposed_rj := d5 }
  match dsResize g.band_swaps_accepted ntot with
  | .error e => (g, some e)
  | .ok d6 =>
  let g := { g with band_swaps_accepted := d6 }
  match dsResize g.band_swaps_proposed ntot with
  | .error e => (g, some e)
  | .ok d7 =>
  let g := { g with band_swaps_proposed := d7 }
  match dsResize g.band_temps ntot with
  | .error e => (g, some e)
  | .ok d8 => ({ g with band_temps := d8 }, none)

/-- `HDFBackend.grow` (hdfbackend.py lines 126-137).  `super().grow`
is delegated; modelled from the spec: the base-store arrays are extended
along the iteration axis so that their length becomes
`iteration + ngrow` (the same `ntot` the band loop uses).  Then every
member of `band_info` is resized to `ntot` in iteration order.  The
second component reports an exception propagating out of the loop; the
store state is whatever the call left behind. -/
def grow (st : Store) (ngrow : ℕ) : Store × Option GFErr :=
  let st1 := { st with baseLen := st.iteration + ngrow }
  let ntot := st1.iteration + ngrow
  let out := growBandLoop st1.bandGroup ntot
  ({ st1 with bandGroup := out.1 }, out.2)

/-- Axis-0 length of a dataset. -/
def dsLen (d : Dataset) : ℕ := d.rows.length

/-- The store produced by
`reset(nwalkers=4, ntemps=2, num_bands=3, band_edges=[0,1,2,3])`. -/
def demoStore : Store :=
  (reset 4 2 (some 3) (some [0, 1, 2, 3])).toOption.getD default

/-- C1: the claim says `grow(n)` after a valid `reset` leaves every
band-diagnostics array's iteration-axis length equal to the base
store's, atomically.  Evaluating the code at
`reset(4, 2, num_bands=3, band_edges=[0,1,2,3])` followed by `grow(5)`:
the loop over `band_info` hits the fixed-shape `band_edges` dataset
first (alphanumeric order), whose resize fails, so the call raises with
the base arrays already grown to length 5 and every diagnostics counter
array still at length 0 — a partially resized store. -/
theorem grow_band_edges_resize_fails :
    reset 4 2 (some 3) (some [0, 1, 2, 3]) = .ok demoStore ∧
    (grow demoStore 5).2 = some .resizeError ∧
    (grow demoStore 5).1.baseLen = 5 ∧
    dsLen (grow demoStore 5).1.bandGroup.band_temps = 0 ∧
    dsLen (grow demoStore 5).1.bandGroup.band_num_accepted = 0 ∧
    dsLen (grow demoStore 5).1.bandGroup.band_edges = 4 := by
  exact ⟨rfl, rfl, rfl, rfl, rfl, rfl⟩

/-- C2: the claim says the `num_bands` and `band_edges` properties read
back exactly the values passed to `reset`, with `num_bands == 3` in the
concrete scenario.  Evaluating the code at
`reset(4, 2, num_bands=3, band_edges=[0,1,2,3])`: the `num_bands`
property returns `len(band_edges) = 4` (line 28 stores the length of the
edges, not the `num_bands` argument), and the `band_edges` property
reads the base-group attribute `"num_bands"`, which `reset` never
writes, so the lookup fails. -/
theorem properties_read_wrong_metadata :
    num_bands demoStore = 4 ∧
    num_bands demoStore ≠ 3 ∧
    band_edges demoStore = .error .keyError := by
  exact ⟨rfl, by decide, rfl⟩

/-- C5: `reset` with `num_bands` absent or `band_edges` absent raises
the configuration `ValueError` (hdfbackend.py lines 8-9) before the
delegated base reset runs, so the backend is left unmodified. -/
theorem reset_missing_band_config_errors (b : Option Store) (nw nt : ℕ)
    (num_bands : Option ℕ) (band_edges : Option (List ℤ))
    (h : num_bands = none ∨ band_edges = none) :
    reset nw nt num_bands band_edges = .error .configError ∧
    resetBackend b nw nt num_bands band_edges = (b, some .configError) := by
  have herr : reset nw nt num_bands band_edges = .error .configError := by
    rcases h with h | h <;> subst h <;> simp [reset]
  refine ⟨herr, ?_⟩
  simp [resetBackend, herr]

/-- Witness for C5 at `reset(nwalkers=4, ntemps=2)` with `num_bands`
absent and `band_edges = [0,1]` supplied. -/
theorem reset_missing_band_config_errors_witness :
    ((none : Option ℕ) = none ∨ (some [0, 1] : Option (List ℤ)) = none) ∧
    (reset 4 2 none (some [0, 1]) = .error .configError ∧
      resetBackend none 4 2 none (some [0, 1]) = (none, some .configError)) :=
  ⟨Or.inl rfl, reset_missing_band_config_errors none 4 2 none (some [0, 1]) (Or.inl rfl)⟩

/-- The `band_info` dict of the in-memory ensemble `State`
(`lisatools/globalfit/state.py`, not among the given sources).
Modelled from the spec: the EnsembleState carries, besides the
band-diagnostics entries mirrored from the store's group, the
per-band counters for swaps, proposals/acceptances (in-model and
trans-dimensional) and live-component counts accumulated since the last
persisted step.  Each entry is flattened to a `List ℤ`. -/
structure BandState where
  band_edges : List ℤ
  band_num_accepted : List ℤ
  band_num_accepted_rj : List ℤ
  band_num_binaries : List ℤ
  band_num_proposed : List ℤ
  band_num_proposed_rj : List ℤ
  band_swaps_accepted : List ℤ
  band_swaps_proposed : List ℤ
  band_temps : List ℤ
deriving DecidableEq, Inhabited

/-- Modelled from the spec: `State.reset_band_counters` lives in
`lisatools/globalfit/state.py`, which is not among the given sources.
Per the spec, the EnsembleState "counters for swaps/acceptances/
live-components accumulated since the last persisted step" are "reset to
zero immediately after each successful `save_step`".  The temperature
ladder and the band edges are not counters and are left untouched. -/
def reset_band_counters (s : BandState) : BandState :=
  { s with
    band_num_accepted := List.replicate s.band_num_accepted.length 0
    band_num_accepted_rj := List.replicate s.band_num_accepted_rj.length 0
    band_num_binaries := List.replicate s.band_num_binaries.length 0
    band_num_proposed := List.replicate s.band_num_proposed.length 0
    band_num_proposed_rj := List.replicate s.band_num_proposed_rj.length 0
    band_swaps_accepted := List.replicate s.band_swaps_accepted.length 0
    band_swaps_proposed := List.replicate s.band_swaps_proposed.length 0 }

/-- Write one axis-0 entry of a dataset in place:
`g["band_info"][name][iteration] = dat`.  Out-of-range writes are
modelled as no-ops; the theorems below carry the in-range hypotheses
under which h5py succeeds. -/
def dsSet (d : Dataset) (i : ℕ) (row : List ℤ) : Dataset :=
  { d with rows := d.rows.set i row }

/-- `HDFBackend.save_step` (hdfbackend.py lines 212-260).
`super().save_step` is delegated; modelled from the spec: the base store
persists the base arrays and "advances the iteration counter by one".
Then each ndarray entry of `state.band_info` except `band_edges`
(line 255) is written into the diagnostics group at index
`g.attrs["iteration"] - 1` (line 244), and finally
`state.reset_band_counters()` runs (line 260).  Returns the new store
and the caller's state after the call. -/
def save_step (st : Store) (s : BandState) : Store × BandState :=
  let it1 := st.iteration + 1
  let idx := it1 - 1
  let g := st.bandGroup
  let g := { g with band_num_accepted := dsSet g.band_num_accepted idx s.band_num_accepted }
  let g := { g with band_num_accepted_rj := dsSet g.band_num_accepted_rj idx s.band_num_accepted_rj }
  let g := { g with band_num_binaries := dsSet g.band_num_binaries idx s.band_num_binaries }
  let g := { g with band_num_proposed := dsSet g.band_num_proposed idx s.band_num_proposed }
  let g := { g with band_num_proposed_rj := dsSet g.band_num_proposed_rj idx s.band_num_proposed_rj }
  let g := { g with band_swaps_accepted := dsSet g.band_swaps_accepted idx s.band_swaps_accepted }
  let g := { g with band_swaps_proposed := dsSet g.band_swaps_proposed idx s.band_swaps_proposed }
  let g := { g with band_temps := dsSet g.band_temps idx s.band_temps }
  ({ st with iteration := it1, bandGroup := g }, reset_band_counters s)

/-- Axis-0 entry `i` of a dataset (empty list when out of range). -/
def rowAt (d : Dataset) (i : ℕ) : List ℤ := (d.rows[i]?).getD []

/-- All eight counter datasets of a group are strictly longer than `n`
along axis 0 (so writes at indices up to `n` are in range). -/
def countersLongerThan (g : BandGroup) (n : ℕ) : Prop :=
  n < dsLen g.band_num_accepted ∧ n < dsLen g.band_num_accepted_rj ∧
  n < dsLen g.band_num_binaries ∧ n < dsLen g.band_num_proposed ∧
  n < dsLen g.band_num_proposed_rj ∧ n < dsLen g.band_swaps_accepted ∧
  n < dsLen g.band_swaps_proposed ∧ n < dsLen g.band_temps

/-- Every counter entry of the ensemble state is zero. -/
def countersZero (s : BandState) : Prop :=
  (∀ x ∈ s.band_num_accepted, x = 0) ∧ (∀ x ∈ s.band_num_accepted_rj, x = 0) ∧
  (∀ x ∈ s.band_num_binaries, x = 0) ∧ (∀ x ∈ s.band_num_proposed, x = 0) ∧
  (∀ x ∈ s.band_num_proposed_rj, x = 0) ∧ (∀ x ∈ s.band_swaps_accepted, x = 0) ∧
  (∀ x ∈ s.band_swaps_proposed, x = 0)

/-- Unfolding lemma for `save_step`: the committed index
`it1 - 1 = iteration` and the eight field updates, spelled out. -/
theorem save_step_eq (st : Store) (s : BandState) :
    save_step st s =
      ({ st with
          iteration := st.iteration + 1
          bandGroup := { st.bandGroup with
            band_num_accepted := dsSet st.bandGroup.band_num_accepted st.iteration s.band_num_accepted
            band_num_accepted_rj := dsSet st.bandGroup.band_num_accepted_rj st.iteration s.band_num_accepted_rj
            band_num_binaries := dsSet st.bandGroup.band_num_binaries st.iteration s.band_num_binaries
            band_num_proposed := dsSet st.bandGroup.band_num_proposed st.iteration s.band_num_proposed
            band_num_proposed_rj := dsSet st.bandGroup.band_num_proposed_rj st.iteration s.band_num_proposed_rj
            band_swaps_accepted := dsSet st.bandGroup.band_swaps_accepted st.iteration s.band_swaps_accepted
            band_swaps_proposed := dsSet st.bandGroup.band_swaps_proposed st.iteration s.band_swaps_proposed
            band_temps := dsSet st.bandGroup.band_temps st.iteration s.band_temps } },
        reset_band_counters s) := rfl

/-- Writing row `i` then reading it back gives the written row. -/
theorem rowAt_dsSet_self (d : Dataset) (i : ℕ) (r : List ℤ) (h : i < d.rows.length) :
    rowAt (dsSet d i r) i = r := by
  simp [rowAt, dsSet, List.getElem?_set_self h]

/-- Writing row `i` leaves every other row unchanged. -/
theorem rowAt_dsSet_ne (d : Dataset) {i j : ℕ} (r : List ℤ) (h : i ≠ j) :
    rowAt (dsSet d i r) j = rowAt d j := by
  simp [rowAt, dsSet, List.getElem?_set_ne h]

/-- Writing a row does not change the axis-0 length. -/
theorem dsLen_dsSet (d : Dataset) (i : ℕ) (r : List ℤ) :
    dsLen (dsSet d i r) = dsLen d := by
  simp [dsLen, dsSet]

/-- C3: a successful `save_step(ensembleState)` commits exactly one new
iteration: the delegated base commit advances the iteration counter by
one, the band counters from the state are written at the committed index
`iteration - 1`, no other row (and not the `band_edges` dataset) is
touched, and afterwards the caller's counters are zeroed, so an
immediate second `save_step` with the unmodified state writes all-zero
counter rows at the next index.  The in-range hypothesis is what h5py
requires for the two successive writes to succeed. -/
theorem save_step_commits_and_zeroes (st : Store) (s : BandState)
    (h : countersLongerThan st.bandGroup (st.iteration + 1)) :
    (save_step st s).1.iteration = st.iteration + 1
    ∧ (rowAt (save_step st s).1.bandGroup.band_num_accepted st.iteration = s.band_num_accepted
      ∧ rowAt (save_step st s).1.bandGroup.band_num_accepted_rj st.iteration = s.band_num_accepted_rj
      ∧ rowAt (save_step st s).1.bandGroup.band_num_binaries st.iteration = s.band_num_binaries
      ∧ rowAt (save_step st s).1.bandGroup.band_num_proposed st.iteration = s.band_num_proposed
      ∧ rowAt (save_step st s).1.bandGroup.band_num_proposed_rj st.iteration = s.band_num_proposed_rj
      ∧ rowAt (save_step st s).1.bandGroup.band_swaps_accepted st.iteration = s.band_swaps_accepted
      ∧ rowAt (save_step st s).1.bandGroup.band_swaps_proposed st.iteration = s.band_swaps_proposed
      ∧ rowAt (save_step st s).1.bandGroup.band_temps st.iteration = s.band_temps)
    ∧ (save_step st s).1.bandGroup.band_edges = st.bandGroup.band_edges
    ∧ (∀ i, i ≠ st.iteration →
        rowAt (save_step st s).1.bandGroup.band_num_accepted i = rowAt st.bandGroup.band_num_accepted i
        ∧ rowAt (save_step st s).1.bandGroup.band_num_accepted_rj i = rowAt st.bandGroup.band_num_accepted_rj i
        ∧ rowAt (save_step st s).1.bandGroup.band_num_binaries i = rowAt st.bandGroup.band_num_binaries i
        ∧ rowAt (save_step st s).1.bandGroup.band_num_proposed i = rowAt st.bandGroup.band_num_proposed i
        ∧ rowAt (save_step st s).1.bandGroup.band_num_proposed_rj i = rowAt st.bandGroup.band_num_proposed_rj i
        ∧ rowAt (save_step st s).1.bandGroup.band_swaps_accepted i = rowAt st.bandGroup.band_swaps_accepted i
        ∧ rowAt (save_step st s).1.bandGroup.band_swaps_proposed i = rowAt st.bandGroup.band_swaps_proposed i
        ∧ rowAt (save_step st s).1.bandGroup.band_temps i = rowAt st.bandGroup.band_temps i)
    ∧ (save_step st s).2 = reset_band_counters s
    ∧ countersZero (save_step st s).2
    ∧ (rowAt (save_step (save_step st s).1 (save_step st s).2).1.bandGroup.band_num_accepted
          (st.iteration + 1) = List.replicate s.band_num_accepted.length 0
      ∧ rowAt (save_step (save_step st s).1 (save_step st s).2).1.bandGroup.band_num_accepted_rj
          (st.iteration + 1) = List.replicate s.band_num_accepted_rj.length 0
      ∧ rowAt (save_step (save_step st s).1 (save_step st s).2).1.bandGroup.band_num_binaries
          (st.iteration + 1) = List.replicate s.band_num_binaries.length 0
      ∧ rowAt (save_step (save_step st s).1 (save_step st s).2).1.bandGroup.band_num_proposed
          (st.iteration + 1) = List.replicate s.band_num_proposed.length 0
      ∧ rowAt (save_step (save_step st s).1 (save_step st s).2).1.bandGroup.band_num_proposed_rj
          (st.iteration + 1) = List.replicate s.band_num_proposed_rj.length 0
      ∧ rowAt (save_step (save_step st s).1 (save_step st s).2).1.bandGroup.band_swaps_accepted
          (st.iteration + 1) = List.replicate s.band_swaps_accepted.length 0
      ∧ rowAt (save_step (save_step st s).1 (save_step st s).2).1.bandGroup.band_swaps_proposed
          (st.iteration + 1) = List.replicate s.band_swaps_proposed.length 0) := by
  obtain ⟨h1, h2, h3, h4, h5, h6, h7, h8⟩ := h
  simp only [dsLen] at h1 h2 h3 h4 h5 h6 h7 h8
  have l1 := Nat.lt_of_succ_lt h1
  have l2 := Nat.lt_of_succ_lt h2
  have l3 := Nat.lt_of_succ_lt h3
  have l4 := Nat.lt_of_succ_lt h4
  have l5 := Nat.lt_of_succ_lt h5
  have l6 := Nat.lt_of_succ_lt h6
  have l7 := Nat.lt_of_succ_lt h7
  have l8 := Nat.lt_of_succ_lt h8
  refine ⟨rfl, ⟨?_, ?_, ?_, ?_, ?_, ?_, ?_, ?_⟩, rfl, ?_, rfl, ?_, ?_⟩
  · exact rowAt_dsSet_self _ _ _ l1
  · exact rowAt_dsSet_self _ _ _ l2
  · exact rowAt_dsSet_self _ _ _ l3
  · exact rowAt_dsSet_self _ _ _ l4
  · exact rowAt_dsSet_self _ _ _ l5
  · exact rowAt_dsSet_self _ _ _ l6
  · exact rowAt_dsSet_self _ _ _ l7
  · exact rowAt_dsSet_self _ _ _ l8
  · intro i hi
    have hne : st.iteration ≠ i := fun hc => hi hc.symm
    exact ⟨rowAt_dsSet_ne _ _ hne, rowAt_dsSet_ne _ _ hne, rowAt_dsSet_ne _ _ hne,
      rowAt_dsSet_ne _ _ hne, rowAt_dsSet_ne _ _ hne, rowAt_dsSet_ne _ _ hne,
      rowAt_dsSet_ne _ _ hne, rowAt_dsSet_ne _ _ hne⟩
  · exact ⟨fun x hx => List.eq_of_mem_replicate hx, fun x hx => List.eq_of_mem_replicate hx,
      fun x hx => List.eq_of_mem_replicate hx, fun x hx => List.eq_of_mem_replicate hx,
      fun x hx => List.eq_of_mem_replicate hx, fun x hx => List.eq_of_mem_replicate hx,
      fun x hx => List.eq_of_mem_replicate hx⟩
  · have q1 : st.iteration + 1 < (dsSet st.bandGroup.band_num_accepted st.iteration s.band_num_accepted).rows.length := by
      simpa [dsSet] using h1
    have q2 : st.iteration + 1 < (dsSet st.bandGroup.band_num_accepted_rj st.iteration s.band_num_accepted_rj).rows.length := by
      simpa [dsSet] using h2
    have q3 : st.iteration + 1 < (dsSet st.bandGroup.band_num_binaries st.iteration s.band_num_binaries).rows.length := by
      simpa [dsSet] using h3
    have q4 : st.iteration + 1 < (dsSet st.bandGroup.band_num_proposed st.iteration s.band_num_proposed).rows.length := by
      simpa [dsSet] using h4
    have q5 : st.iteration + 1 < (dsSet st.bandGroup.band_num_proposed_rj st.iteration s.band_num_proposed_rj).rows.length := by
      simpa [dsSet] using h5
    have q6 : st.iteration + 1 < (dsSet st.bandGroup.band_swaps_accepted st.iteration s.band_swaps_accepted).rows.length := by
      simpa [dsSet] using h6
    have q7 : st.iteration + 1 < (dsSet st.bandGroup.band_swaps_proposed st.iteration s.band_swaps_proposed).rows.length := by
      simpa [dsSet] using h7
    exact ⟨rowAt_dsSet_self _ _ _ q1, rowAt_dsSet_self _ _ _ q2, rowAt_dsSet_self _ _ _ q3,
      rowAt_dsSet_self _ _ _ q4, rowAt_dsSet_self _ _ _ q5, rowAt_dsSet_self _ _ _ q6,
      rowAt_dsSet_self _ _ _ q7⟩

/-- A growable counter dataset with two committed-slot rows, used by the
concrete witnesses. -/
def w3DS : Dataset := { rowSize := 2, rows := [[0, 0], [0, 0]], resizable := true }

/-- A concrete store with zero committed iterations and counter arrays
grown to length 2. -/
def w3Store : Store :=
  { iteration := 0
    baseLen := 2
    bandGroup :=
      { band_edges := { rowSize := 1, rows := [[0], [1]], resizable := false }
        band_num_accepted := w3DS
        band_num_accepted_rj := w3DS
        band_num_binaries := w3DS
        band_num_proposed := w3DS
        band_num_proposed_rj := w3DS
        band_swaps_accepted := w3DS
        band_swaps_proposed := w3DS
        band_temps := w3DS }
    bandInfoNumBands := 2
    groupNumBands := none
    nwalkers := 1
    ntemps := 2 }

/-- A concrete ensemble state with distinguishable counters. -/
def w3State : BandState :=
  { band_edges := [0, 1]
    band_num_accepted := [1, 2]
    band_num_accepted_rj := [3, 4]
    band_num_binaries := [5, 6]
    band_num_proposed := [7, 8]
    band_num_proposed_rj := [9, 1]
    band_swaps_accepted := [2, 3]
    band_swaps_proposed := [4, 5]
    band_temps := [6, 7] }

/-- Witness for C3 at the concrete store `w3Store` and state `w3State`. -/
theorem save_step_commits_and_zeroes_witness :
    countersLongerThan w3Store.bandGroup (w3Store.iteration + 1)
    ∧ ((save_step w3Store w3State).1.iteration = w3Store.iteration + 1
    ∧ (rowAt (save_step w3Store w3State).1.bandGroup.band_num_accepted w3Store.iteration = w3State.band_num_accepted
      ∧ rowAt (save_step w3Store w3State).1.bandGroup.band_num_accepted_rj w3Store.iteration = w3State.band_num_accepted_rj
      ∧ rowAt (save_step w3Store w3State).1.bandGroup.band_num_binaries w3Store.iteration = w3State.band_num_binaries
      ∧ rowAt (save_step w3Store w3State).1.bandGroup.band_num_proposed w3Store.iteration = w3State.band_num_proposed
      ∧ rowAt (save_step w3Store w3State).1.bandGroup.band_num_proposed_rj w3Store.iteration = w3State.band_num_proposed_rj
      ∧ rowAt (save_step w3Store w3State).1.bandGroup.band_swaps_accepted w3Store.iteration = w3State.band_swaps_accepted
      ∧ rowAt (save_step w3Store w3State).1.bandGroup.band_swaps_proposed w3Store.iteration = w3State.band_swaps_proposed
      ∧ rowAt (save_step w3Store w3State).1.bandGroup.band_temps w3Store.iteration = w3State.band_temps)
    ∧ (save_step w3Store w3State).1.bandGroup.band_edges = w3Store.bandGroup.band_edges
    ∧ (∀ i, i ≠ w3Store.iteration →
        rowAt (save_step w3Store w3State).1.bandGroup.band_num_accepted i = rowAt w3Store.bandGroup.band_num_accepted i
        ∧ rowAt (save_step w3Store w3State).1.bandGroup.band_num_accepted_rj i = rowAt w3Store.bandGroup.band_num_accepted_rj i
        ∧ rowAt (save_step w3Store w3State).1.bandGroup.band_num_binaries i = rowAt w3Store.bandGroup.band_num_binaries i
        ∧ rowAt (save_step w3Store w3State).1.bandGroup.band_num_proposed i = rowAt w3Store.bandGroup.band_num_proposed i
        ∧ rowAt (save_step w3Store w3State).1.bandGroup.band_num_proposed_rj i = rowAt w3Store.bandGroup.band_num_proposed_rj i
        ∧ rowAt (save_step w3Store w3State).1.bandGroup.band_swaps_accepted i = rowAt w3Store.bandGroup.band_swaps_accepted i
        ∧ rowAt (save_step w3Store w3State).1.bandGroup.band_swaps_proposed i = rowAt w3Store.bandGroup.band_swaps_proposed i
        ∧ rowAt (save_step w3Store w3State).1.bandGroup.band_temps i = rowAt w3Store.bandGroup.band_temps i)
    ∧ (save_step w3Store w3State).2 = reset_band_counters w3State
    ∧ countersZero (save_step w3Store w3State).2
    ∧ (rowAt (save_step (save_step w3Store w3State).1 (save_step w3Store w3State).2).1.bandGroup.band_num_accepted
          (w3Store.iteration + 1) = List.replicate w3State.band_num_accepted.length 0
      ∧ rowAt (save_step (save_step w3Store w3State).1 (save_step w3Store w3State).2).1.bandGroup.band_num_accepted_rj
          (w3Store.iteration + 1) = List.replicate w3State.band_num_accepted_rj.length 0
      ∧ rowAt (save_step (save_step w3Store w3State).1 (save_step w3Store w3State).2).1.bandGroup.band_num_binaries
          (w3Store.iteration + 1) = List.replicate w3State.band_num_binaries.length 0
      ∧ rowAt (save_step (save_step w3Store w3State).1 (save_step w3Store w3State).2).1.bandGroup.band_num_proposed
          (w3Store.iteration + 1) = List.replicate w3State.band_num_proposed.length 0
      ∧ rowAt (save_step (save_step w3Store w3State).1 (save_step w3Store w3State).2).1.bandGroup.band_num_proposed_rj
          (w3Store.iteration + 1) = List.replicate w3State.band_num_proposed_rj.length 0
      ∧ rowAt (save_step (save_step w3Store w3State).1 (save_step w3Store w3State).2).1.bandGroup.band_swaps_accepted
          (w3Store.iteration + 1) = List.replicate w3State.band_swaps_accepted.length 0
      ∧ rowAt (save_step (save_step w3Store w3State).1 (save_step w3Store w3State).2).1.bandGroup.band_swaps_proposed
          (w3Store.iteration + 1) = List.replicate w3State.band_swaps_proposed.length 0)) :=
  ⟨by exact ⟨by decide, by decide, by decide, by decide, by decide, by decide, by decide, by decide⟩,
    save_step_commits_and_zeroes w3Store w3State
      (by exact ⟨by decide, by decide, by decide, by decide, by decide, by decide, by decide, by decide⟩)⟩

/-- Python slicing `xs[start : stop : step]` of an axis-0 array for
non-negative `start`, `stop` and positive `step` (the only combinations
the backend produces from `thin ≥ 1`, `discard ≥ 0`): the entries at
indices `start, start + step, start + 2*step, …` that are below both
`stop` and the length. -/
def pySlice (xs : List (List ℤ)) (start stop step : ℕ) : List (List ℤ) :=
  ((List.range xs.length).filter fun i =>
      decide (start ≤ i) && decide (i < stop) && decide ((i - start) % step = 0)).filterMap
    fun i => xs[i]?

/-- The value returned for the `"band_info"` pseudo-name: one sliced
row-list per dataset of the group (the code slices every member of
`band_info`, the `band_edges` dataset included). -/
structure BandView where
  band_edges : List (List ℤ)
  band_num_accepted : List (List ℤ)
  band_num_accepted_rj : List (List ℤ)
  band_num_binaries : List (List ℤ)
  band_num_proposed : List (List ℤ)
  band_num_proposed_rj : List (List ℤ)
  band_swaps_accepted : List (List ℤ)
  band_swaps_proposed : List (List ℤ)
  band_temps : List (List ℤ)
deriving DecidableEq, Inhabited

/-- `{key: g["band_info"][key][slice_vals] for key in g["band_info"]}`
(hdfbackend.py line 187). -/
def sliceAll (g : BandGroup) (start stop step : ℕ) : BandView :=
  { band_edges := pySlice g.band_edges.rows start stop step
    band_num_accepted := pySlice g.band_num_accepted.rows start stop step
    band_num_accepted_rj := pySlice g.band_num_accepted_rj.rows start stop step
    band_num_binaries := pySlice g.band_num_binaries.rows start stop step
    band_num_proposed := pySlice g.band_num_proposed.rows start stop step
    band_num_proposed_rj := pySlice g.band_num_proposed_rj.rows start stop step
    band_swaps_accepted := pySlice g.band_swaps_accepted.rows start stop step
    band_swaps_proposed := pySlice g.band_swaps_proposed.rows start stop step
    band_temps := pySlice g.band_temps.rows start stop step }

/-- `HDFBackend.get_value` (hdfbackend.py lines 139-188).  A backend
that was never reset is `none`; reading it raises the `AttributeError`
of line 162.  For names other than `"band_info"` the call is delegated
to the base store (line 170); modelled from the spec: the delegated
`get_value` fails with the same not-initialized error when zero
iterations are committed, and its payload (the base ensemble arrays) is
outside this model, so `none` stands in for it.  For `"band_info"`, the
default slice is `slice(discard + thin - 1, self.iteration, thin)`
(line 173), an explicit `slice_vals` is used as given with `thin` and
`discard` ignored, zero committed iterations raise (lines 180-185), and
otherwise every member of the group is sliced (line 187). -/
def get_value (b : Option Store) (name : String) (thin discard : ℕ)
    (slice_vals : Option (ℕ × ℕ × ℕ)) : Except GFErr (Option BandView) :=
  match b with
  | none => .error .notReady
  | some st =>
    if name ≠ "band_info" then
      if st.iteration = 0 then .error .notReady else .ok none
    else
      let sv := slice_vals.getD (discard + thin - 1, st.iteration, thin)
      if st.iteration = 0 then .error .notReady
      else .ok (some (sliceAll st.bandGroup sv.1 sv.2.1 sv.2.2))

/-- `HDFBackend.get_band_info` (hdfbackend.py lines 190-210): forwards
to `get_value("band_info", …)`. -/
def get_band_info (b : Option Store) (thin discard : ℕ)
    (slice_vals : Option (ℕ × ℕ × ℕ)) : Except GFErr (Option BandView) :=
  get_value b "band_info" thin discard slice_vals

/-- The band-diagnostics part of `HDFBackend.get_a_sample`
(hdfbackend.py lines 262-282): `thin = self.iteration - it` when
`it != self.iteration`, else `1`, and the diagnostics are fetched via
`get_band_info(discard=it - 1, thin=thin)`.  The delegated base-store
sample and the `"initialized"` marker added afterwards carry no
band-diagnostics content and are not modelled. -/
def get_a_sample (st : Store) (it : ℕ) : Except GFErr (Option BandView) :=
  let thin := if it ≠ st.iteration then st.iteration - it else 1
  get_band_info (some st) thin (it - 1) none

/-- C4: on an initialized store with at least one committed iteration,
`get_value("band_info", thin=t, discard=d)` returns, for every member
of the diagnostics group, exactly the rows of the full array sliced
with `[d + t - 1 : iteration : t]`; and an explicit `slice_vals` is
used directly, with `thin` and `discard` ignored entirely. -/
theorem get_value_thinning_law (st : Store) (t d : ℕ) (ht : 1 ≤ t)
    (hit : 1 ≤ st.iteration) :
    get_value (some st) "band_info" t d none =
      .ok (some
        { band_edges := pySlice st.bandGroup.band_edges.rows (d + t - 1) st.iteration t
          band_num_accepted := pySlice st.bandGroup.band_num_accepted.rows (d + t - 1) st.iteration t
          band_num_accepted_rj := pySlice st.bandGroup.band_num_accepted_rj.rows (d + t - 1) st.iteration t
          band_num_binaries := pySlice st.bandGroup.band_num_binaries.rows (d + t - 1) st.iteration t
          band_num_proposed := pySlice st.bandGroup.band_num_proposed.rows (d + t - 1) st.iteration t
          band_num_proposed_rj := pySlice st.bandGroup.band_num_proposed_rj.rows (d + t - 1) st.iteration t
          band_swaps_accepted := pySlice st.bandGroup.band_swaps_accepted.rows (d + t - 1) st.iteration t
          band_swaps_proposed := pySlice st.bandGroup.band_swaps_proposed.rows (d + t - 1) st.iteration t
          band_temps := pySlice st.bandGroup.band_temps.rows (d + t - 1) st.iteration t })
    ∧ ∀ sv t2 d2, get_value (some st) "band_info" t d (some sv) =
        get_value (some st) "band_info" t2 d2 (some sv) := by
  have hne : st.iteration ≠ 0 := Nat.one_le_iff_ne_zero.mp hit
  constructor
  · simp [get_value, hne, sliceAll]
  · intro sv t2 d2
    simp [get_value]

/-- A concrete store with two committed iterations and distinguishable
rows, used by the read-path witnesses. -/
def wReadStore : Store :=
  { iteration := 2
    baseLen := 3
    bandGroup :=
      { band_edges := { rowSize := 1, rows := [[0], [1]], resizable := false }
        band_num_accepted := { rowSize := 1, rows := [[1], [2], [0]], resizable := true }
        band_num_accepted_rj := { rowSize := 1, rows := [[3], [4], [0]], resizable := true }
        band_num_binaries := { rowSize := 1, rows := [[5], [6], [0]], resizable := true }
        band_num_proposed := { rowSize := 1, rows := [[7], [8], [0]], resizable := true }
        band_num_proposed_rj := { rowSize := 1, rows := [[9], [1], [0]], resizable := true }
        band_swaps_accepted := { rowSize := 1, rows := [[2], [3], [0]], resizable := true }
        band_swaps_proposed := { rowSize := 1, rows := [[4], [5], [0]], resizable := true }
        band_temps := { rowSize := 1, rows := [[6], [7], [0]], resizable := true } }
    bandInfoNumBands := 2
    groupNumBands := none
    nwalkers := 1
    ntemps := 2 }

/-- Witness for C4 at `wReadStore` with `thin = 1`, `discard = 0`. -/
theorem get_value_thinning_law_witness :
    (1 ≤ 1 ∧ 1 ≤ wReadStore.iteration)
    ∧ (get_value (some wReadStore) "band_info" 1 0 none =
        .ok (some
          { band_edges := pySlice wReadStore.bandGroup.band_edges.rows (0 + 1 - 1) wReadStore.iteration 1
            band_num_accepted := pySlice wReadStore.bandGroup.band_num_accepted.rows (0 + 1 - 1) wReadStore.iteration 1
            band_num_accepted_rj := pySlice wReadStore.bandGroup.band_num_accepted_rj.rows (0 + 1 - 1) wReadStore.iteration 1
            band_num_binaries := pySlice wReadStore.bandGroup.band_num_binaries.rows (0 + 1 - 1) wReadStore.iteration 1
            band_num_proposed := pySlice wReadStore.bandGroup.band_num_proposed.rows (0 + 1 - 1) wReadStore.iteration 1
            band_num_proposed_rj := pySlice wReadStore.bandGroup.band_num_proposed_rj.rows (0 + 1 - 1) wReadStore.iteration 1
            band_swaps_accepted := pySlice wReadStore.bandGroup.band_swaps_accepted.rows (0 + 1 - 1) wReadStore.iteration 1
            band_swaps_proposed := pySlice wReadStore.bandGroup.band_swaps_proposed.rows (0 + 1 - 1) wReadStore.iteration 1
            band_temps := pySlice wReadStore.bandGroup.band_temps.rows (0 + 1 - 1) wReadStore.iteration 1 })
      ∧ ∀ sv t2 d2, get_value (some wReadStore) "band_info" 1 0 (some sv) =
          get_value (some wReadStore) "band_info" t2 d2 (some sv)) :=
  ⟨⟨by decide, by decide⟩, get_value_thinning_law wReadStore 1 0 (by decide) (by decide)⟩

/-- C6: every `get_value` or `get_band_info` call against a backend
that was never reset, or against a store with zero committed
iterations, fails with the not-initialized `AttributeError` and returns
no data. -/
theorem reads_before_data_error (name : String) (thin discard : ℕ)
    (slice_vals : Option (ℕ × ℕ × ℕ)) (st : Store) (h : st.iteration = 0) :
    get_value none name thin discard slice_vals = .error .notReady
    ∧ get_value (some st) name thin discard slice_vals = .error .notReady
    ∧ get_band_info none thin discard slice_vals = .error .notReady
    ∧ get_band_info (some st) thin discard slice_vals = .error .notReady := by
  refine ⟨rfl, ?_, rfl, ?_⟩
  · by_cases hb : name = "band_info" <;> simp [get_value, hb, h]
  · simp [get_band_info, get_value, h]

/-- Witness for C6 at the freshly reset `demoStore` (zero committed
iterations) and at a never-reset backend. -/
theorem reads_before_data_error_witness :
    demoStore.iteration = 0
    ∧ (get_value none "chain" 1 0 none = .error .notReady
    ∧ get_value (some demoStore) "chain" 1 0 none = .error .notReady
    ∧ get_band_info none 1 0 none = .error .notReady
    ∧ get_band_info (some demoStore) 1 0 none = .error .notReady) :=
  ⟨rfl, reads_before_data_error "chain" 1 0 none demoStore rfl⟩

/-- C7: for an initialized store and a requested iteration index
`1 ≤ it ≤ iteration`, `get_a_sample(it)` fetches its diagnostics via
`get_value("band_info", …)` with `discard = it - 1` and `thin = 1` when
`it` is the most recent committed iteration, else
`thin = iteration - it`. -/
theorem get_a_sample_thin_discard (st : Store) (it : ℕ) (h1 : 1 ≤ it)
    (h2 : it ≤ st.iteration) :
    get_a_sample st it =
      get_value (some st) "band_info"
        (if it = st.iteration then 1 else st.iteration - it) (it - 1) none := by
  unfold get_a_sample get_band_info
  by_cases h : it = st.iteration <;> simp [h]

/-- Witness for C7 at `wReadStore` (two committed iterations) and
`it = 1`, a non-final index. -/
theorem get_a_sample_thin_discard_witness :
    (1 ≤ 1 ∧ 1 ≤ wReadStore.iteration)
    ∧ get_a_sample wReadStore 1 =
        get_value (some wReadStore) "band_info"
          (if 1 = wReadStore.iteration then 1 else wReadStore.iteration - 1) (1 - 1) none :=
  ⟨⟨by decide, by decide⟩, get_a_sample_thin_discard wReadStore 1 (by decide) (by decide)⟩

end GlobalFit

namespace Pipeline

/-!
Model of the start-ensemble selection performed by the pipeline stages
(`pipeline.py`, `MBHBase.update_module` lines 188-199 and
`MBHRelBinSearch.update_module` lines 259-263):

```
log_prob = reader.get_log_prob().flatten()
start_inds = np.argsort(log_prob)
uni, inds = np.unique(log_prob[start_inds], return_index=True)
start_inds = start_inds[inds[-int(self.ntemps * self.nwalkers):]]
start_points = reader.get_chain()[...].reshape(-1, ndim)[start_inds]
```

The flattened stored log-likelihoods are taken as an input list
(`ModifiedHDFBackend.get_log_prob` only reads them back; that class is
not among the given sources).  A sample is the pair of its flat index
and its log-likelihood.  `np.argsort` is modelled as a stable ascending
sort, which the spec asserts for the tie-break (numpy's default sort
leaves the relative order of exact ties implementation-defined);
sorting index/value pairs by value with the index as tie-break makes
this explicit.  `np.unique(…, return_index=True)` on the already sorted
values keeps the first entry of each run of equal values.
-/

/-- Ascending order on (flat index, log-likelihood) pairs: by value,
ties broken by the original index (stable sort). -/
def lexLe (a b : ℕ × ℤ) : Prop := a.2 < b.2 ∨ (a.2 = b.2 ∧ a.1 ≤ b.1)

instance : DecidableRel lexLe := fun a b =>
  decidable_of_iff (a.2 < b.2 ∨ (a.2 = b.2 ∧ a.1 ≤ b.1)) Iff.rfl

instance : IsTotal (ℕ × ℤ) lexLe :=
  ⟨fun a b => by simp only [lexLe]; omega⟩

instance : IsTrans (ℕ × ℤ) lexLe :=
  ⟨fun a b c => by simp only [lexLe]; omega⟩

/-- `np.argsort(log_prob)` paired with the sorted values: the stable
ascending sort of the (index, value) pairs. -/
def argsort (log_prob : List ℤ) : List (ℕ × ℤ) :=
  List.insertionSort lexLe log_prob.enum

/-- Helper for `dedupFirst`: drop entries whose value equals the value
of the last kept pair, keep the first entry of every new run. -/
def dedupAux (prev : ℕ × ℤ) : List (ℕ × ℤ) → List (ℕ × ℤ)
  | [] => []
  | q :: l => if q.2 = prev.2 then dedupAux prev l else q :: dedupAux q l

/-- `np.unique(values, return_index=True)` applied to an
ascending-sorted pair list: the first pair of every run of equal
values. -/
def dedupFirst : List (ℕ × ℤ) → List (ℕ × ℤ)
  | [] => []
  | p :: l => p :: dedupAux p l

/-- Python `xs[-k:]`: the last `min(k, len(xs))` elements for `k ≥ 1`,
the whole list for `k = 0`. -/
def pyLastSlice {α : Type} (xs : List α) (k : ℕ) : List α :=
  if k = 0 then xs else xs.drop (xs.length - k)

/-- The selected (index, value) pairs:
`start_inds[inds[-k:]]` paired with their log-likelihoods, where
`k = int(self.ntemps * self.nwalkers)`. -/
def selectPairs (log_prob : List ℤ) (k : ℕ) : List (ℕ × ℤ) :=
  pyLastSlice (dedupFirst (argsort log_prob)) k

/-- The selected flat indices, `start_inds[inds[-k:]]`. -/
def select_start_inds (log_prob : List ℤ) (k : ℕ) : List ℕ :=
  (selectPairs log_prob k).map Prod.fst

/-- `start_points`: the stored chain samples at the selected indices. -/
def select_start_points {α : Type} (chain : List α) (log_prob : List ℤ) (k : ℕ) : List α :=
  (select_start_inds log_prob k).filterMap fun i => chain[i]?

/-- Membership in the sorted pair list is exactly "the list stores this
value at this flat index". -/
theorem mem_argsort {log_prob : List ℤ} {p : ℕ × ℤ} :
    p ∈ argsort log_prob ↔ log_prob[p.1]? = some p.2 := by
  unfold argsort
  rw [List.mem_insertionSort]
  exact List.mem_enum_iff_getElem?

theorem sorted_argsort (log_prob : List ℤ) : List.Sorted lexLe (argsort log_prob) :=
  List.sorted_insertionSort lexLe _

theorem dedupAux_sublist : ∀ (p : ℕ × ℤ) (l : List (ℕ × ℤ)), List.Sublist (dedupAux p l) l
  | _, [] => List.Sublist.refl _
  | p, q :: l => by
    rw [dedupAux]
    by_cases h : q.2 = p.2
    · rw [if_pos h]
      exact (dedupAux_sublist p l).trans (List.sublist_cons_self q l)
    · rw [if_neg h]
      exact (dedupAux_sublist q l).cons₂ q

theorem dedupFirst_sublist : ∀ l : List (ℕ × ℤ), List.Sublist (dedupFirst l) l
  | [] => List.Sublist.refl _
  | p :: l => (dedupAux_sublist p l).cons₂ p

theorem mem_of_mem_dedupFirst {l : List (ℕ × ℤ)} {p : ℕ × ℤ}
    (h : p ∈ dedupFirst l) : p ∈ l :=
  (dedupFirst_sublist l).subset h

/-- Every element of the input either has the last kept value or is
represented in the output by an element of equal value. -/
theorem dedupAux_rep : ∀ (p : ℕ × ℤ) (l : List (ℕ × ℤ)), ∀ r ∈ l,
    r.2 = p.2 ∨ ∃ x ∈ dedupAux p l, x.2 = r.2
  | _, [] => by intro r hr; cases hr
  | p, q :: l => by
    intro r hr
    rw [dedupAux]
    by_cases h : q.2 = p.2
    · rw [if_pos h]
      rcases List.mem_cons.mp hr with rfl | hr
      · exact Or.inl h
      · exact dedupAux_rep p l r hr
    · rw [if_neg h]
      rcases List.mem_cons.mp hr with rfl | hr
      · exact Or.inr ⟨r, List.mem_cons_self r _, rfl⟩
      · rcases dedupAux_rep q l r hr with hv | ⟨x, hx, hvx⟩
        · exact Or.inr ⟨q, List.mem_cons_self q _, hv.symm⟩
        · exact Or.inr ⟨x, List.mem_cons_of_mem q hx, hvx⟩

/-- Every value of the input list survives into `dedupFirst`. -/
theorem dedupFirst_rep : ∀ (l : List (ℕ × ℤ)), ∀ r ∈ l,
    ∃ x ∈ dedupFirst l, x.2 = r.2 := by
  intro l r hr
  match l with
  | [] => cases hr
  | p :: l =>
    rcases List.mem_cons.mp hr with rfl | hr
    · exact ⟨r, List.mem_cons_self r _, rfl⟩
    · rcases dedupAux_rep p l r hr with hv | ⟨x, hx, hvx⟩
      · exact ⟨p, List.mem_cons_self p _, hv.symm⟩
      · exact ⟨x, List.mem_cons_of_mem p hx, hvx⟩

/-- On a sorted input, `dedupAux` produces values strictly above the
last kept one, pairwise strictly increasing. -/
theorem dedupAux_strict : ∀ (p : ℕ × ℤ) (l : List (ℕ × ℤ)),
    List.Sorted lexLe (p :: l) →
    (∀ x ∈ dedupAux p l, p.2 < x.2) ∧
      List.Pairwise (fun a b : ℕ × ℤ => a.2 < b.2) (dedupAux p l)
  | _, [], _ => ⟨by simp [dedupAux], by simp [dedupAux]⟩
  | p, q :: l, h => by
    have hpq : lexLe p q := (List.sorted_cons.mp h).1 q (List.mem_cons_self q l)
    have hql : List.Sorted lexLe (q :: l) := (List.sorted_cons.mp h).2
    have hpl : List.Sorted lexLe (p :: l) :=
      h.sublist ((List.sublist_cons_self q l).cons₂ p)
    rw [dedupAux]
    by_cases hv : q.2 = p.2
    · rw [if_pos hv]
      exact dedupAux_strict p l hpl
    · rw [if_neg hv]
      have hlt : p.2 < q.2 := by
        rcases hpq with hlt | ⟨heq, _⟩
        · exact hlt
        · exact absurd heq.symm hv
      obtain ⟨ih1, ih2⟩ := dedupAux_strict q l hql
      refine ⟨?_, ?_⟩
      · intro x hx
        rcases List.mem_cons.mp hx with rfl | hx
        · exact hlt
        · exact hlt.trans (ih1 x hx)
      · exact List.pairwise_cons.mpr ⟨ih1, ih2⟩

/-- On a sorted input, the values kept by `dedupFirst` are pairwise
strictly increasing (in particular pairwise distinct). -/
theorem dedupFirst_strict : ∀ (l : List (ℕ × ℤ)), List.Sorted lexLe l →
    List.Pairwise (fun a b : ℕ × ℤ => a.2 < b.2) (dedupFirst l) := by
  intro l h
  match l with
  | [] => simp [dedupFirst]
  | p :: l =>
    obtain ⟨h1, h2⟩ := dedupAux_strict p l h
    exact List.pairwise_cons.mpr ⟨h1, h2⟩

/-- On a sorted input, every pair kept by `dedupAux` carries the
smallest flat index among the input entries of its value. -/
theorem dedupAux_first_occ : ∀ (p : ℕ × ℤ) (l : List (ℕ × ℤ)),
    List.Sorted lexLe (p :: l) →
    ∀ x ∈ dedupAux p l, ∀ r ∈ l, r.2 = x.2 → x.1 ≤ r.1
  | _, [], _ => by simp [dedupAux]
  | p, q :: l, h => by
    intro x hx r hr hvr
    have hql : List.Sorted lexLe (q :: l) := (List.sorted_cons.mp h).2
    have hpl : List.Sorted lexLe (p :: l) :=
      h.sublist ((List.sublist_cons_self q l).cons₂ p)
    rw [dedupAux] at hx
    by_cases hv : q.2 = p.2
    · rw [if_pos hv] at hx
      have hpx : p.2 < x.2 := (dedupAux_strict p l hpl).1 x hx
      rcases List.mem_cons.mp hr with rfl | hr
      · exact absurd (hvr ▸ hv ▸ hpx) (lt_irrefl _)
      · exact dedupAux_first_occ p l hpl x hx r hr hvr
    · rw [if_neg hv] at hx
      rcases List.mem_cons.mp hx with rfl | hx
      · rcases List.mem_cons.mp hr with rfl | hr
        · exact le_refl _
        · have hqr : lexLe x r := (List.sorted_cons.mp hql).1 r hr
          rcases hqr with hlt | ⟨_, hle⟩
          · exact absurd (hvr ▸ hlt) (lt_irrefl _)
          · exact hle
      · have hqx : q.2 < x.2 := (dedupAux_strict q l hql).1 x hx
        rcases List.mem_cons.mp hr with rfl | hr
        · exact absurd (hvr ▸ hqx) (lt_irrefl _)
        · exact dedupAux_first_occ q l hql x hx r hr hvr

/-- On a sorted input, every pair kept by `dedupFirst` carries the
smallest flat index among the input entries of its value (the stable
"first occurrence after sort"). -/
theorem dedupFirst_first_occ (l : List (ℕ × ℤ)) (h : List.Sorted lexLe l) :
    ∀ x ∈ dedupFirst l, ∀ r ∈ l, r.2 = x.2 → x.1 ≤ r.1 := by
  match l with
  | [] => simp [dedupFirst]
  | p :: l =>
    intro x hx r hr hvr
    rcases List.mem_cons.mp hx with rfl | hx
    · rcases List.mem_cons.mp hr with rfl | hr
      · exact le_refl _
      · have hpr : lexLe x r := (List.sorted_cons.mp h).1 r hr
        rcases hpr with hlt | ⟨_, hle⟩
        · exact absurd (hvr ▸ hlt) (lt_irrefl _)
        · exact hle
    · rcases List.mem_cons.mp hr with rfl | hr
      · have := (dedupAux_strict r l h).1 x hx
        exact absurd (hvr ▸ this) (lt_irrefl _)
      · exact dedupAux_first_occ p l h x hx r hr hvr

/-- On a sorted input, `dedupFirst` keeps exactly one pair per distinct
value. -/
theorem length_dedupFirst (l : List (ℕ × ℤ)) (h : List.Sorted lexLe l) :
    (dedupFirst l).length = (l.map Prod.snd).toFinset.card := by
  have hpair := dedupFirst_strict l h
  have hmap : List.Pairwise (· < ·) ((dedupFirst l).map Prod.snd) :=
    List.pairwise_map.mpr hpair
  have hnodup : ((dedupFirst l).map Prod.snd).Nodup :=
    hmap.imp (fun hlt => ne_of_lt hlt)
  have hsetEq : ((dedupFirst l).map Prod.snd).toFinset = (l.map Prod.snd).toFinset := by
    ext v
    simp only [List.mem_toFinset, List.mem_map]
    constructor
    · rintro ⟨p, hp, rfl⟩
      exact ⟨p, mem_of_mem_dedupFirst hp, rfl⟩
    · rintro ⟨q, hq, rfl⟩
      obtain ⟨p, hp, hv⟩ := dedupFirst_rep l q hq
      exact ⟨p, hp, hv⟩
  calc (dedupFirst l).length
      = ((dedupFirst l).map Prod.snd).length := (List.length_map _ _).symm
    _ = ((dedupFirst l).map Prod.snd).toFinset.card :=
        (List.toFinset_card_of_nodup hnodup).symm
    _ = (l.map Prod.snd).toFinset.card := by rw [hsetEq]

/-- The distinct values surviving the sort are the distinct values of
the input list. -/
theorem argsort_values_toFinset (log_prob : List ℤ) :
    ((argsort log_prob).map Prod.snd).toFinset = log_prob.toFinset := by
  have hperm : List.Perm (argsort log_prob) log_prob.enum := List.perm_insertionSort lexLe _
  have : List.Perm ((argsort log_prob).map Prod.snd) (log_prob.enum.map Prod.snd) := hperm.map _
  rw [List.enum_map_snd] at this
  exact List.toFinset_eq_of_perm _ _ this

/-- C8 counterexample: with two stored samples of equal log-likelihood
and `numTemps * numWalkers = 2`, the selection yields one starting
sample, not "exactly numTemps*numWalkers": `np.unique` collapses the
tie to a single representative and `inds[-2:]` then has a single entry. -/
theorem select_not_exactly_k :
    (select_start_inds [7, 7] 2).length = 1 ∧
    ¬ (select_start_inds [7, 7] 2).length = 2 := by
  exact ⟨by decide, by decide⟩

/-- C8 (amended): for `k = numTemps*numWalkers ≥ 1`, the stage seeding
selects `min k u` samples, where `u` is the number of distinct stored
log-likelihood values (exactly `k` whenever at least `k` distinct values
are stored): their log-likelihoods are strictly increasing (so the
selection is de-duplicated), every stored log-likelihood either appears
among the selected values or lies strictly below all of them (so the
selected values are the highest), and each selected sample is the
stored sample of smallest flat index among those attaining its value
(the stable first occurrence after the ascending sort). -/
theorem select_top_dedup_amended (log_prob : List ℤ) (k : ℕ) (hk : 1 ≤ k) :
    (selectPairs log_prob k).length = min k log_prob.toFinset.card
    ∧ List.Pairwise (fun a b : ℕ × ℤ => a.2 < b.2) (selectPairs log_prob k)
    ∧ (∀ i : ℕ, ∀ v : ℤ, log_prob[i]? = some v →
        (∃ p ∈ selectPairs log_prob k, p.2 = v) ∨ ∀ p ∈ selectPairs log_prob k, v < p.2)
    ∧ ∀ p ∈ selectPairs log_prob k, log_prob[p.1]? = some p.2 ∧
        ∀ j v, log_prob[j]? = some v → v = p.2 → p.1 ≤ j := by
  have hk0 : k ≠ 0 := Nat.one_le_iff_ne_zero.mp hk
  have hs : List.Sorted lexLe (argsort log_prob) := sorted_argsort log_prob
  have hsel : selectPairs log_prob k =
      (dedupFirst (argsort log_prob)).drop ((dedupFirst (argsort log_prob)).length - k) := by
    simp [selectPairs, pyLastSlice, hk0]
  have hdlen : (dedupFirst (argsort log_prob)).length = log_prob.toFinset.card := by
    rw [length_dedupFirst _ hs, argsort_values_toFinset]
  refine ⟨?_, ?_, ?_, ?_⟩
  · rw [hsel, List.length_drop, hdlen]
    omega
  · rw [hsel]
    exact (dedupFirst_strict _ hs).sublist (List.drop_sublist _ _)
  · intro i v hv
    have hmem : (i, v) ∈ argsort log_prob := mem_argsort.mpr hv
    obtain ⟨p, hp, hpv⟩ := dedupFirst_rep _ (i, v) hmem
    have hpairApp : List.Pairwise (fun a b : ℕ × ℤ => a.2 < b.2)
        ((dedupFirst (argsort log_prob)).take ((dedupFirst (argsort log_prob)).length - k) ++
          (dedupFirst (argsort log_prob)).drop ((dedupFirst (argsort log_prob)).length - k)) := by
      rw [List.take_append_drop]
      exact dedupFirst_strict _ hs
    have hpmem : p ∈
        (dedupFirst (argsort log_prob)).take ((dedupFirst (argsort log_prob)).length - k) ++
          (dedupFirst (argsort log_prob)).drop ((dedupFirst (argsort log_prob)).length - k) := by
      rw [List.take_append_drop]
      exact hp
    rcases List.mem_append.mp hpmem with htake | hdrop
    · right
      intro q hq
      have hq2 : q ∈ (dedupFirst (argsort log_prob)).drop
          ((dedupFirst (argsort log_prob)).length - k) := by
        rw [hsel] at hq
        exact hq
      have hlt := (List.pairwise_append.mp hpairApp).2.2 p htake q hq2
      rw [hpv] at hlt
      exact hlt
    · left
      refine ⟨p, ?_, hpv⟩
      rw [hsel]
      exact hdrop
  · intro p hp
    have hpd : p ∈ dedupFirst (argsort log_prob) := by
      rw [hsel] at hp
      exact List.drop_subset _ _ hp
    have hps : p ∈ argsort log_prob := mem_of_mem_dedupFirst hpd
    refine ⟨mem_argsort.mp hps, ?_⟩
    intro j v hjv hveq
    have hqs : (j, v) ∈ argsort log_prob := mem_argsort.mpr hjv
    exact dedupFirst_first_occ _ hs p hpd (j, v) hqs (by simpa using hveq)

/-- Witness for the amended C8 at the stored log-likelihoods
`[3, 1, 2]` and `k = 2`. -/
theorem select_top_dedup_amended_witness :
    1 ≤ 2
    ∧ ((selectPairs [3, 1, 2] 2).length = min 2 ([3, 1, 2] : List ℤ).toFinset.card
    ∧ List.Pairwise (fun a b : ℕ × ℤ => a.2 < b.2) (selectPairs [3, 1, 2] 2)
    ∧ (∀ i : ℕ, ∀ v : ℤ, ([3, 1, 2] : List ℤ)[i]? = some v →
        (∃ p ∈ selectPairs [3, 1, 2] 2, p.2 = v) ∨ ∀ p ∈ selectPairs [3, 1, 2] 2, v < p.2)
    ∧ ∀ p ∈ selectPairs [3, 1, 2] 2, ([3, 1, 2] : List ℤ)[p.1]? = some p.2 ∧
        ∀ j v, ([3, 1, 2] : List ℤ)[j]? = some v → v = p.2 → p.1 ≤ j) :=
  ⟨by decide, select_top_dedup_amended [3, 1, 2] 2 (by decide)⟩

end Pipeline

namespace DataContainer

/-!
Model of `DataResidualArray` input validation
(`datacontainer.py`, `__init__` lines 41-56, `_check_inputs` lines
58-76, `_store_time_and_frequency_information` lines 78-131).  Floats
are modelled as exact rationals; only the lengths of the frequency grid
and of the data channels are represented, since the container's FFT
numerics are out of scope (spec section 1) and every length check in the
source depends only on them.  `L` is `data_length`, the common length of
the input channels enforced by the `data_res_arr` setter.
-/

/-- The `ValueError`s of the container: missing timing input, more than
one timing input, and the frequency-grid/data-length mismatch of
line 128-131. -/
inductive DRErr where
  | mustProvide
  | onlyOne
  | lengthMismatch
deriving DecidableEq, Inhabited

/-- `number_of_none` as counted by `_check_inputs` (lines 64-68). -/
def numberOfNone (dt : Option ℚ) (f_arr : Option (List ℚ)) (df : Option ℚ) : ℕ :=
  (if dt.isNone then 1 else 0) + (if f_arr.isNone then 1 else 0) +
    (if df.isNone then 1 else 0)

/-- `DataResidualArray._check_inputs` (lines 58-76): raises when all
three of `dt`, `f_arr`, `df` are absent (`number_of_none == 3`) and when
exactly one is absent (`number_of_none == 1`, i.e. two are supplied);
any other combination falls through. -/
def check_inputs (dt : Option ℚ) (f_arr : Option (List ℚ)) (df : Option ℚ) :
    Except DRErr Unit :=
  if numberOfNone dt f_arr df = 3 then .error .mustProvide
  else if numberOfNone dt f_arr df = 1 then .error .onlyOne
  else .ok ()

/-- Number of points of `np.arange(0.0, stop, step)` for `step > 0`,
in exact arithmetic: `max 0 ⌈stop / step⌉`.  This is an idealization:
numpy evaluates `ceil((stop - start) / step)` in IEEE doubles, where
rounding of `stop` and of the quotient can add a point (the classic
`arange` endpoint pitfall, e.g. `np.arange(0.0, 0.30000000000000004, 0.1)`
has 4 points), so no conclusion about the `df` branch's length check is
drawn from this model — it only records the shape of the computation. -/
def arangeLen (stop step : ℚ) : ℕ := (Int.ceil (stop / step)).toNat

/-- `DataResidualArray._store_time_and_frequency_information`
(lines 78-131), lengths only.  `dt` branch (lines 84-97): `f_arr`
becomes `np.fft.rfftfreq(L, dt)` with `L / 2 + 1` points and the data
are replaced by their `rfft`, so `data_length` becomes `L / 2 + 1` as
well.  `df` branch (lines 99-104): `fmax = (L - 1) * df` and
`f_arr = np.arange(0.0, fmax, df)`, with `data_length` unchanged — the
grid length uses the exact-arithmetic `arangeLen`, an idealization of
numpy's IEEE-double `arange` (see its doc comment), so whether this
branch's length check passes for a given float `df` is outside the
model.  `f_arr` branch (lines 106-126): the grid is stored as given.
After the branches, `len(f_arr) != data_length` raises
(lines 128-131). -/
def store_time_and_frequency_information (L : ℕ) (dt : Option ℚ)
    (f_arr : Option (List ℚ)) (df : Option ℚ) : Except DRErr Unit :=
  match dt with
  | some _ =>
    let fLen := L / 2 + 1
    let dataLen := L / 2 + 1
    if fLen ≠ dataLen then .error .lengthMismatch else .ok ()
  | none =>
  match df with
  | some df0 =>
    let fLen := arangeLen (((L : ℚ) - 1) * df0) df0
    if fLen ≠ L then .error .lengthMismatch else .ok ()
  | none =>
  match f_arr with
  | some f => if f.length ≠ L then .error .lengthMismatch else .ok ()
  | none => .ok ()

/-- `DataResidualArray.__init__` on raw channel arrays of common length
`L` (lines 41-56): `_check_inputs` then
`_store_time_and_frequency_information`. -/
def construct (L : ℕ) (dt : Option ℚ) (f_arr : Option (List ℚ)) (df : Option ℚ) :
    Except DRErr Unit := do
  check_inputs dt f_arr df
  store_time_and_frequency_information L dt f_arr df

/-- C9 counterexample: supplying all three of `dt`, `f_arr`, `df`
(`number_of_none == 0`) passes `_check_inputs`, and the whole
construction succeeds (the `dt` branch runs and its length check always
holds), refuting "fails whenever more than one of them is supplied". -/
theorem all_three_supplied_passes :
    check_inputs (some 1) (some [0, 1, 2]) (some 1) = .ok () ∧
    construct 4 (some 1) (some [0, 1, 2]) (some 1) = .ok () :=
  ⟨rfl, rfl⟩

/-- C9 (amended): the single-source-of-truth check fails exactly when
none of `{dt, f_arr, df}` is supplied or when exactly two of them are
supplied; it passes both when exactly one is supplied and when all
three are supplied (`dt` then takes precedence). -/
theorem check_inputs_error_iff (dt : Option ℚ) (f_arr : Option (List ℚ))
    (df : Option ℚ) :
    (∃ e, check_inputs dt f_arr df = .error e) ↔
      ((dt = none ∧ f_arr = none ∧ df = none)
        ∨ (dt = none ∧ f_arr ≠ none ∧ df ≠ none)
        ∨ (dt ≠ none ∧ f_arr = none ∧ df ≠ none)
        ∨ (dt ≠ none ∧ f_arr ≠ none ∧ df = none)) := by
  cases dt <;> cases f_arr <;> cases df <;>
    simp [check_inputs, numberOfNone]

end DataContainer
